import Mathlib

/-!
Verification of the domain-manager reconciliation-and-scheduling engine
(`app/scheduler.py`, `app/services.py`) against its natural-language
specification.  The Python code is shallowly embedded: timestamps are a
record of calendar fields plus an optional UTC offset, the persisted JSON
file is a structural document whose timestamp slots hold rendered character
codes, collaborator calls (public-IP resolvers, the DNS provider, certbot,
notification transports) are oracles supplied through environment records,
and the mutating job bodies are pure functions that also emit an ordered
trace of the observable actions they perform (state writes, provider
calls, notifications, saves, sleeps).
-/

namespace DomainManager

/-! ## Timestamps

Mirrors the `datetime.datetime` values produced by `get_current_time_in_tz`
(timezone-aware, whole-minute UTC offset via `pytz`) and by
`CertificateMonitor.get_cert_expiration_date`.  `utcoffsetMinutes = none`
models a naive datetime.  Serialized text is modelled as the list of its
character codes. -/

structure PyDateTime where
  year : Nat
  month : Nat
  day : Nat
  hour : Nat
  minute : Nat
  second : Nat
  microsecond : Nat
  utcoffsetMinutes : Option Int
deriving DecidableEq

/-- Bound on a UTC offset: Python requires a timedelta strictly within one
day, and `pytz` localized offsets are whole minutes. -/
def offsetOK : Option Int → Bool
  | none => true
  | some z => decide (z.natAbs < 1440)

/-- Field ranges accepted by the Python `datetime` constructor, with the
offset bound required for an `isoformat` rendering of the form `+HH:MM`. -/
def validDT (d : PyDateTime) : Bool :=
  decide (1 ≤ d.year ∧ d.year ≤ 9999 ∧ 1 ≤ d.month ∧ d.month ≤ 12 ∧
    1 ≤ d.day ∧ d.day ≤ 31 ∧ d.hour ≤ 23 ∧ d.minute ≤ 59 ∧
    d.second ≤ 59 ∧ d.microsecond ≤ 999999) && offsetOK d.utcoffsetMinutes

/-- Character codes of a two-digit zero-padded decimal rendering. -/
def digitsOf2 (n : Nat) : List Nat :=
  [48 + n / 10 % 10, 48 + n % 10]

/-- Character codes of a four-digit zero-padded decimal rendering. -/
def digitsOf4 (n : Nat) : List Nat :=
  [48 + n / 1000 % 10, 48 + n / 100 % 10, 48 + n / 10 % 10, 48 + n % 10]

/-- Character codes of a six-digit zero-padded decimal rendering. -/
def digitsOf6 (n : Nat) : List Nat :=
  [48 + n / 100000 % 10, 48 + n / 10000 % 10, 48 + n / 1000 % 10,
   48 + n / 100 % 10, 48 + n / 10 % 10, 48 + n % 10]

/-- Fractional-second part of `isoformat`: present only when non-zero.
Code 46 is the dot. -/
def microRender (micro : Nat) : List Nat :=
  if micro = 0 then [] else 46 :: digitsOf6 micro

/-- UTC-offset suffix of `isoformat`: empty for naive datetimes, otherwise
a sign (43 the plus, 45 the minus) followed by `HH:MM` (58 the colon). -/
def offsetRender : Option Int → List Nat
  | none => []
  | some z =>
    (if z < 0 then 45 else 43) ::
      (digitsOf2 (z.natAbs / 60) ++ 58 :: digitsOf2 (z.natAbs % 60))

/-- Embedding of `datetime.isoformat()` as called by `save_state`:
`YYYY-MM-DDTHH:MM:SS`, the microsecond part only when non-zero, and a
`+HH:MM` / `-HH:MM` suffix for aware datetimes.  Code 45 is the hyphen,
84 the letter T, 58 the colon. -/
def isoformat (d : PyDateTime) : List Nat :=
  digitsOf4 d.year ++ 45 :: digitsOf2 d.month ++ 45 :: digitsOf2 d.day ++
  84 :: digitsOf2 d.hour ++ 58 :: digitsOf2 d.minute ++ 58 ::
  (digitsOf2 d.second ++
    (microRender d.microsecond ++ offsetRender d.utcoffsetMinutes))

/-- Value of a decimal digit character code. -/
def digitVal (c : Nat) : Option Nat :=
  if 48 ≤ c ∧ c ≤ 57 then some (c - 48) else none

/-- Consume two decimal digits. -/
def parse2 : List Nat → Option (Nat × List Nat)
  | c1 :: c2 :: rest =>
    match digitVal c1, digitVal c2 with
    | some a, some b => some (a * 10 + b, rest)
    | _, _ => none
  | _ => none

/-- Consume four decimal digits. -/
def parse4 (l : List Nat) : Option (Nat × List Nat) := do
  let (a, r) ← parse2 l
  let (b, r) ← parse2 r
  pure (a * 100 + b, r)

/-- Consume six decimal digits. -/
def parse6 (l : List Nat) : Option (Nat × List Nat) := do
  let (a, r) ← parse2 l
  let (b, r) ← parse2 r
  let (c, r) ← parse2 r
  pure (a * 10000 + b * 100 + c, r)

/-- Consume one expected separator character. -/
def expectSep (c : Nat) : List Nat → Option (List Nat)
  | x :: rest => if x = c then some rest else none
  | _ => none

/-- Parse a trailing `HH:MM` offset body, requiring end of input. -/
def parseHM (l : List Nat) : Option Nat := do
  let (h, r) ← parse2 l
  let r ← expectSep 58 r
  let (m, r) ← parse2 r
  match r with
  | [] => pure (h * 60 + m)
  | _ => none

/-- Parse the optional signed UTC-offset suffix. -/
def parseOffsetPart : List Nat → Option (Option Int)
  | [] => some none
  | 43 :: r =>
    match parseHM r with
    | some v => some (some (v : Int))
    | none => none
  | 45 :: r =>
    match parseHM r with
    | some v => some (some (-(v : Int)))
    | none => none
  | _ => none

/-- Parse the optional fractional-second part followed by the optional
offset suffix. -/
def parseTail (l : List Nat) : Option (Nat × Option Int) :=
  if l.head? = some 46 then do
    let (micro, r) ← parse6 l.tail
    let off ← parseOffsetPart r
    pure (micro, off)
  else do
    let off ← parseOffsetPart l
    pure (0, off)

/-- Embedding of `datetime.fromisoformat` as called by `load_state`, on the
grammar that `isoformat` emits; any other shape is a parse error (which the
Python original raises as `ValueError`). -/
def fromisoformat (l : List Nat) : Option PyDateTime := do
  let (y, r) ← parse4 l
  let r ← expectSep 45 r
  let (mo, r) ← parse2 r
  let r ← expectSep 45 r
  let (da, r) ← parse2 r
  let r ← expectSep 84 r
  let (h, r) ← parse2 r
  let r ← expectSep 58 r
  let (mi, r) ← parse2 r
  let r ← expectSep 58 r
  let (s, r) ← parse2 r
  let (micro, off) ← parseTail r
  pure ⟨y, mo, da, h, mi, s, micro, off⟩

/-- Days since 1970-01-01 of a civil date, by the standard era
decomposition. -/
def daysFromCivil (y m d : Int) : Int :=
  let yAdj := if m ≤ 2 then y - 1 else y
  let era := (if 0 ≤ yAdj then yAdj else yAdj - 399) / 400
  let yoe := yAdj - era * 400
  let mp := (m + 9) % 12
  let doy := (153 * mp + 2) / 5 + d - 1
  let doe := yoe * 365 + yoe / 4 - yoe / 100 + doy
  era * 146097 + doe - 719468

/-- Microseconds since the epoch of the naive calendar fields. -/
def naiveMicros (d : PyDateTime) : Int :=
  (daysFromCivil d.year d.month d.day * 86400 +
   d.hour * 3600 + d.minute * 60 + d.second) * 1000000 + d.microsecond

/-- Instant denoted by a datetime: the naive reading shifted back by the
UTC offset (a naive datetime is read at offset zero). -/
def instantMicros (d : PyDateTime) : Int :=
  naiveMicros d - (d.utcoffsetMinutes.getD 0) * 60 * 1000000

/-- Instant of an optional timestamp slot. -/
def optInstant (v : Option PyDateTime) : Option Int :=
  v.map instantMicros

/-! ### Round-trip of the timestamp text form -/

lemma digitVal_add (x : Nat) (h : x ≤ 9) : digitVal (48 + x) = some x := by
  unfold digitVal
  rw [if_pos (by omega)]
  simp

lemma parse2_render (n : Nat) (rest : List Nat) (h : n < 100) :
    parse2 (digitsOf2 n ++ rest) = some (n, rest) := by
  have e1 := digitVal_add (n / 10 % 10) (by omega)
  have e2 := digitVal_add (n % 10) (by omega)
  simp [digitsOf2, parse2, e1, e2]
  omega

lemma digitsOf4_split (n : Nat) :
    digitsOf4 n = digitsOf2 (n / 100) ++ digitsOf2 (n % 100) := by
  simp [digitsOf4, digitsOf2]
  omega

lemma digitsOf6_split (n : Nat) :
    digitsOf6 n = digitsOf2 (n / 10000) ++ digitsOf2 (n / 100 % 100) ++ digitsOf2 (n % 100) := by
  simp [digitsOf6, digitsOf2]
  omega

lemma parse4_render (n : Nat) (rest : List Nat) (h : n < 10000) :
    parse4 (digitsOf4 n ++ rest) = some (n, rest) := by
  rw [digitsOf4_split n, List.append_assoc]
  rw [parse4]
  rw [parse2_render _ _ (by omega)]
  simp only [Option.bind_eq_bind, Option.some_bind, Option.pure_def]
  rw [parse2_render _ _ (by omega)]
  simp only [Option.bind_eq_bind, Option.some_bind, Option.pure_def]
  have : n / 100 * 100 + n % 100 = n := by omega
  simp [this]

lemma parse6_render (n : Nat) (rest : List Nat) (h : n < 1000000) :
    parse6 (digitsOf6 n ++ rest) = some (n, rest) := by
  rw [digitsOf6_split n, List.append_assoc, List.append_assoc]
  rw [parse6]
  rw [parse2_render _ _ (by omega)]
  simp only [Option.bind_eq_bind, Option.some_bind, Option.pure_def]
  rw [parse2_render _ _ (by omega)]
  simp only [Option.bind_eq_bind, Option.some_bind, Option.pure_def]
  rw [parse2_render _ _ (by omega)]
  simp only [Option.bind_eq_bind, Option.some_bind, Option.pure_def]
  have : n / 10000 * 10000 + n / 100 % 100 * 100 + n % 100 = n := by omega
  simp [this]

lemma expectSep_cons (c : Nat) (rest : List Nat) :
    expectSep c (c :: rest) = some rest := by
  simp [expectSep]

lemma parseHM_render (v : Nat) (h : v < 1440) :
    parseHM (digitsOf2 (v / 60) ++ 58 :: digitsOf2 (v % 60)) = some v := by
  rw [parseHM]
  rw [parse2_render _ _ (by omega)]
  simp only [Option.bind_eq_bind, Option.some_bind, Option.pure_def]
  rw [expectSep_cons]
  simp only [Option.bind_eq_bind, Option.some_bind, Option.pure_def]
  rw [show digitsOf2 (v % 60) = digitsOf2 (v % 60) ++ [] by simp]
  rw [parse2_render _ _ (by omega)]
  simp only [Option.bind_eq_bind, Option.some_bind, Option.pure_def]
  have : v / 60 * 60 + v % 60 = v := by omega
  simp [this]

lemma parseOffsetPart_render (off : Option Int) (h : offsetOK off = true) :
    parseOffsetPart (offsetRender off) = some off := by
  cases off with
  | none => simp [offsetRender, parseOffsetPart]
  | some z =>
    simp only [offsetOK, decide_eq_true_eq] at h
    by_cases hz : z < 0
    · rw [offsetRender, if_pos hz]
      simp only [parseOffsetPart, parseHM_render z.natAbs h]
      have hq : -((z.natAbs : Nat) : Int) = z := by omega
      rw [hq]
    · rw [offsetRender, if_neg hz]
      simp only [parseOffsetPart, parseHM_render z.natAbs h]
      have hq : ((z.natAbs : Nat) : Int) = z := by omega
      rw [hq]

lemma offsetRender_head_ne (off : Option Int) :
    (offsetRender off).head? ≠ some 46 := by
  cases off with
  | none => simp [offsetRender]
  | some z =>
    rw [offsetRender]
    by_cases hz : z < 0 <;> simp [hz]

lemma parseTail_render (micro : Nat) (off : Option Int)
    (hm : micro ≤ 999999) (hoff : offsetOK off = true) :
    parseTail (microRender micro ++ offsetRender off) = some (micro, off) := by
  by_cases h0 : micro = 0
  · subst h0
    have hmr : microRender 0 = [] := by simp [microRender]
    rw [hmr, List.nil_append]
    rw [parseTail, if_neg (offsetRender_head_ne off)]
    simp [parseOffsetPart_render off hoff]
  · have hmr : microRender micro = 46 :: digitsOf6 micro := by
      rw [microRender, if_neg h0]
    rw [hmr, List.cons_append, parseTail]
    rw [if_pos
      (show ((46 : Nat) :: (digitsOf6 micro ++ offsetRender off)).head? = some 46 from rfl)]
    simp only [List.tail_cons]
    rw [parse6_render micro _ (by omega)]
    simp [parseOffsetPart_render off hoff]

/-- Parsing the rendered text of a valid datetime recovers every field
exactly, hence in particular the same instant. -/
theorem fromisoformat_isoformat (d : PyDateTime) (h : validDT d = true) :
    fromisoformat (isoformat d) = some d := by
  obtain ⟨y, mo, da, hh, mi, ss, micro, off⟩ := d
  simp only [validDT, Bool.and_eq_true, decide_eq_true_eq] at h
  obtain ⟨⟨hy1, hy2, hmo1, hmo2, hda1, hda2, hhh, hmi, hss, hmicro⟩, hoff⟩ := h
  rw [isoformat]
  rw [fromisoformat]
  simp only [List.append_assoc, List.cons_append]
  rw [parse4_render y _ (by omega)]
  simp only [Option.bind_eq_bind, Option.some_bind]
  rw [expectSep_cons]
  simp only [Option.some_bind]
  rw [parse2_render mo _ (by omega)]
  simp only [Option.some_bind]
  rw [expectSep_cons]
  simp only [Option.some_bind]
  rw [parse2_render da _ (by omega)]
  simp only [Option.some_bind]
  rw [expectSep_cons]
  simp only [Option.some_bind]
  rw [parse2_render hh _ (by omega)]
  simp only [Option.some_bind]
  rw [expectSep_cons]
  simp only [Option.some_bind]
  rw [parse2_render mi _ (by omega)]
  simp only [Option.some_bind]
  rw [expectSep_cons]
  simp only [Option.some_bind]
  rw [parse2_render ss _ (by omega)]
  simp only [Option.some_bind]
  rw [parseTail_render micro off (by omega) hoff]
  simp only [Option.some_bind, Option.pure_def]

/-! ## State model

The in-memory `app_state` of `scheduler.py`: `public_ip`,
`last_ip_check_time` and the `domain_states` dictionary, whose entries
carry `recorded_ip`, `ssl_expiration`, `last_update_time` and
`ssl_last_renew`.  Dictionaries are association lists with the update-or-
append semantics of a Python dict; an absent key and a key holding `None`
are both modelled as `none`, which the code never distinguishes (every
read is a `.get` with a falsy check). -/

structure DomainState where
  recorded_ip : Option String
  ssl_expiration : Option PyDateTime
  last_update_time : Option PyDateTime
  ssl_last_renew : Option PyDateTime
deriving DecidableEq

/-- Entry freshly created by `app_state["domain_states"][name] = {}`. -/
def emptyDS : DomainState := ⟨none, none, none, none⟩

structure GlobalState where
  public_ip : Option String
  last_ip_check_time : Option PyDateTime
  domain_states : List (String × DomainState)
deriving DecidableEq

/-- Default in-memory state declared at module load. -/
def freshState : GlobalState := ⟨none, none, []⟩

/-- Dictionary write: replace the value of an existing key in place, or
append a new binding. -/
def dictSet {α : Type} : List (String × α) → String → α → List (String × α)
  | [], k, v => [(k, v)]
  | (k0, v0) :: rest, k, v =>
    if k0 = k then (k0, v) :: rest else (k0, v0) :: dictSet rest k v

/-- Dictionary read with the empty entry as default. -/
def dsGet (m : List (String × DomainState)) (k : String) : DomainState :=
  (m.lookup k).getD emptyDS

/-- Field update on one entry of the `domain_states` dictionary. -/
def dsSet (m : List (String × DomainState)) (k : String)
    (f : DomainState → DomainState) : List (String × DomainState) :=
  dictSet m k (f (dsGet m k))

/-- Embedding of `if domain_name not in app_state["domain_states"]:
app_state["domain_states"][domain_name] = \x7b\x7d`. -/
def ensureEntry (m : List (String × DomainState)) (k : String) :
    List (String × DomainState) :=
  if (m.lookup k).isSome then m else dictSet m k emptyDS

lemma lookup_cons_self {α : Type} (k : String) (v : α) (l : List (String × α)) :
    ((k, v) :: l).lookup k = some v := by
  simp [List.lookup]

lemma lookup_cons_of_ne {α : Type} (k k2 : String) (v : α) (l : List (String × α))
    (h : k2 ≠ k) : ((k, v) :: l).lookup k2 = l.lookup k2 := by
  have hb : (k2 == k) = false := beq_eq_false_iff_ne.mpr h
  simp [List.lookup, hb]

lemma dictSet_lookup_self {α : Type} (m : List (String × α)) (k : String) (v : α) :
    (dictSet m k v).lookup k = some v := by
  induction m with
  | nil => simp [dictSet, lookup_cons_self]
  | cons p rest ih =>
    obtain ⟨k0, v0⟩ := p
    by_cases hk : k0 = k
    · subst hk
      simp [dictSet, lookup_cons_self]
    · simp only [dictSet, if_neg hk]
      rw [lookup_cons_of_ne _ _ _ _ fun he => hk he.symm]
      exact ih

lemma dictSet_lookup_ne {α : Type} (m : List (String × α)) (k k2 : String) (v : α)
    (h : k2 ≠ k) : (dictSet m k v).lookup k2 = m.lookup k2 := by
  induction m with
  | nil => simp [dictSet, lookup_cons_of_ne _ _ _ _ h]
  | cons p rest ih =>
    obtain ⟨k0, v0⟩ := p
    by_cases hk : k0 = k
    · subst hk
      have e : dictSet ((k0, v0) :: rest) k0 v = (k0, v) :: rest := by
        rw [dictSet, if_pos rfl]
      rw [e, lookup_cons_of_ne _ _ _ _ h, lookup_cons_of_ne _ _ _ _ h]
    · simp only [dictSet, if_neg hk]
      by_cases hk2 : k0 = k2
      · subst hk2
        simp [lookup_cons_self]
      · rw [lookup_cons_of_ne _ _ _ _ fun he => hk2 he.symm,
          lookup_cons_of_ne _ _ _ _ fun he => hk2 he.symm]
        exact ih

/-! ## State persistence

Embedding of `save_state` / `load_state`.  The JSON document is modelled
structurally: the three top-level keys that `save_state` always writes,
with timestamp slots holding either null or the rendered text.  A file
whose very reading or JSON parsing raises is `StateFile.unreadable`; both
that and a timestamp that `datetime.fromisoformat` rejects land in the
`except` branch of `load_state`, which logs and resets `app_state` to the
module defaults.  Demo mode (which skips persistence entirely) is outside
this model. -/

structure SerializedDomainState where
  recorded_ip : Option String
  ssl_expiration : Option (List Nat)
  last_update_time : Option (List Nat)
  ssl_last_renew : Option (List Nat)
deriving DecidableEq

structure SerializedState where
  public_ip : Option String
  last_ip_check_time : Option (List Nat)
  domain_states : List (String × SerializedDomainState)
deriving DecidableEq

inductive StateFile
  | missing
  | unreadable
  | parsed (s : SerializedState)
deriving DecidableEq

/-- Timestamp slot as written by `save_state`: `isoformat` when the value
is a datetime, passed through otherwise (here: null). -/
def serializeSlot (v : Option PyDateTime) : Option (List Nat) :=
  v.map isoformat

/-- Serialization of one domain entry: timestamps rendered, the rest
passed through. -/
def serializeDS (d : DomainState) : SerializedDomainState :=
  ⟨d.recorded_ip, serializeSlot d.ssl_expiration,
   serializeSlot d.last_update_time, serializeSlot d.ssl_last_renew⟩

/-- Embedding of `save_state` (without the demo-mode skip): deep-copies the
state and renders every datetime field to text. -/
def save_state (g : GlobalState) : SerializedState :=
  ⟨g.public_ip, serializeSlot g.last_ip_check_time,
   g.domain_states.map fun p => (p.1, serializeDS p.2)⟩

/-- Conversion applied by `load_state` to one timestamp slot:
`if state.get(key): state[key] = datetime.fromisoformat(state[key])`.
A null (or falsy empty-text) slot is left alone; unparsable text makes
`fromisoformat` raise, modelled as `none`. -/
def convertSlot : Option (List Nat) → Option (Option PyDateTime)
  | none => some none
  | some l =>
    if l = [] then some none
    else
      match fromisoformat l with
      | some d => some (some d)
      | none => none

/-- Timestamp conversion over one domain entry, in source order. -/
def convertDS (s : SerializedDomainState) : Option DomainState := do
  let e ← convertSlot s.ssl_expiration
  let u ← convertSlot s.last_update_time
  let r ← convertSlot s.ssl_last_renew
  pure ⟨s.recorded_ip, e, u, r⟩

/-- Timestamp conversion over the loaded `domain_states` entries; the
first rejected timestamp aborts the whole load. -/
def convertEntries : List (String × SerializedDomainState) →
    Option (List (String × DomainState))
  | [] => some []
  | (name, s) :: rest => do
    let d ← convertDS s
    let tail ← convertEntries rest
    pure ((name, d) :: tail)

/-- Timestamp conversion over the whole loaded document. -/
def convertState (s : SerializedState) : Option GlobalState := do
  let t ← convertSlot s.last_ip_check_time
  let ds ← convertEntries s.domain_states
  pure ⟨s.public_ip, t, ds⟩

/-- Embedding of `load_state` (real mode).  Returns the new in-memory
state and whether the error branch ran (`logger.error` plus reset to the
fresh defaults).  The function is total: no outcome raises. -/
def load_state (prior : GlobalState) (file : StateFile) : GlobalState × Bool :=
  match file with
  | .missing => (prior, false)
  | .unreadable => (freshState, true)
  | .parsed s =>
    match convertState s with
    | some g => (g, false)
    | none => (freshState, true)

/-- Parse failure of a persisted-state file: the read/JSON stage raises,
or some timestamp text is rejected. -/
def loadParseFails (file : StateFile) : Prop :=
  file = .unreadable ∨ ∃ s, file = .parsed s ∧ convertState s = none

/-- Validity of every timestamp held in a state. -/
def validGlobal (g : GlobalState) : Bool :=
  g.last_ip_check_time.all validDT &&
  g.domain_states.all fun p =>
    p.2.ssl_expiration.all validDT && p.2.last_update_time.all validDT &&
    p.2.ssl_last_renew.all validDT

lemma isoformat_ne_nil (d : PyDateTime) : isoformat d ≠ [] := by
  simp [isoformat, digitsOf4]

lemma convertSlot_serializeSlot (v : Option PyDateTime) (h : v.all validDT = true) :
    convertSlot (serializeSlot v) = some v := by
  cases v with
  | none => rfl
  | some d =>
    simp only [Option.all_some] at h
    show convertSlot (some (isoformat d)) = some (some d)
    rw [convertSlot]
    rw [if_neg (isoformat_ne_nil d), fromisoformat_isoformat d h]

lemma convertDS_serializeDS (d : DomainState)
    (h1 : d.ssl_expiration.all validDT = true)
    (h2 : d.last_update_time.all validDT = true)
    (h3 : d.ssl_last_renew.all validDT = true) :
    convertDS (serializeDS d) = some d := by
  simp only [convertDS, serializeDS]
  rw [convertSlot_serializeSlot _ h1]
  simp only [Option.bind_eq_bind, Option.some_bind]
  rw [convertSlot_serializeSlot _ h2]
  simp only [Option.some_bind]
  rw [convertSlot_serializeSlot _ h3]
  simp only [Option.some_bind, Option.pure_def]

lemma convertEntries_serialize (l : List (String × DomainState))
    (hl : l.all (fun p => p.2.ssl_expiration.all validDT &&
      p.2.last_update_time.all validDT && p.2.ssl_last_renew.all validDT) = true) :
    convertEntries (l.map fun p => (p.1, serializeDS p.2)) = some l := by
  induction l with
  | nil => rfl
  | cons p rest ih =>
    simp only [List.all_cons, Bool.and_eq_true] at hl
    obtain ⟨⟨⟨h1, h2⟩, h3⟩, hrest⟩ := hl
    simp only [List.map_cons]
    obtain ⟨name, d⟩ := p
    rw [convertEntries]
    rw [convertDS_serializeDS d h1 h2 h3]
    simp only [Option.bind_eq_bind, Option.some_bind]
    rw [ih hrest]
    simp only [Option.some_bind, Option.pure_def]

lemma convertState_save (g : GlobalState) (h : validGlobal g = true) :
    convertState (save_state g) = some g := by
  obtain ⟨ip, t, ds⟩ := g
  simp only [validGlobal, Bool.and_eq_true] at h
  obtain ⟨ht, hds⟩ := h
  simp only [convertState, save_state]
  rw [convertSlot_serializeSlot t ht]
  simp only [Option.bind_eq_bind, Option.some_bind]
  rw [convertEntries_serialize ds hds]
  simp only [Option.some_bind, Option.pure_def]

/-! ## DDNS reconciliation

Embedding of `run_ddns_update`.  Collaborators (`PublicIPService`,
`Route53Service`, `NotificationService`, the clock and the global
notifications flag from config) are an oracle record; the job is a pure
function from the oracle, the configured domain list and the current state
to the new state plus the ordered trace of observable actions.
Notification subjects and bodies are kept as the list of f-string
segments, literals and interpolated values in source order. -/

structure DomainConfig where
  name : String
  ddns : Bool
  auto_update : Bool
  notifications : Bool
  ssl_enabled : Bool
deriving DecidableEq

structure DdnsEnv where
  publicIp : Option String
  getARecord : String → Option String
  updateResult : String → String → Bool
  now : PyDateTime
  globalNotificationsEnabled : Bool

/-- Observable actions of a DDNS cycle, in execution order. -/
inductive Ev
  | setLastIpCheckTime
  | setPublicIp (v : Option String)
  | setRecordedIp (domain : String) (v : Option String)
  | setLastUpdateTime (domain : String) (t : PyDateTime)
  | updateCall (domain ip : String)
  | notify (subject body : List String)
  | saveState
deriving DecidableEq

/-- Embedding of `recorded_ip or "N/A"` in the notification bodies. -/
def orNA : Option String → String
  | none => "N/A"
  | some s => if s = "" then "N/A" else s

/-- Test applied at the alias guard:
`recorded_ip and recorded_ip.startswith("ALIAS:")`.  Prefix matching is
expressed on the character lists so that it evaluates on concrete
strings. -/
def isAliasValue : Option String → Bool
  | none => false
  | some s => "ALIAS:".toList.isPrefixOf s.toList

/-- The per-domain body of the `run_ddns_update` loop (source lines
190-248), from the ensure-entry step through the mismatch handling.
Returns the updated `domain_states` dictionary and the emitted actions. -/
def processDomain (env : DdnsEnv) (newIp : String)
    (m : List (String × DomainState)) (dc : DomainConfig) :
    List (String × DomainState) × List Ev :=
  let m := ensureEntry m dc.name
  if ¬ dc.ddns then (m, [])
  else
    let recorded := env.getARecord dc.name
    let m := dsSet m dc.name fun d => { d with recorded_ip := recorded }
    let m := dsSet m dc.name fun d => { d with last_update_time := some env.now }
    let evs := [Ev.setRecordedIp dc.name recorded,
                Ev.setLastUpdateTime dc.name env.now]
    let sendAlerts := env.globalNotificationsEnabled && dc.notifications
    if isAliasValue recorded then (m, evs)
    else if recorded ≠ some newIp then
      if dc.auto_update then
        let success := env.updateResult dc.name newIp
        let evs := evs ++ [Ev.updateCall dc.name newIp]
        if success then
          let m := dsSet m dc.name fun d => { d with recorded_ip := some newIp }
          let evs := evs ++ [Ev.setRecordedIp dc.name (some newIp)]
          if sendAlerts then
            (m, evs ++ [Ev.notify ["DDNS IP Updated for ", dc.name]
              ["The IP address for ", dc.name, " has been successfully updated.\n\n",
               "New IP: ", newIp, "\n", "Old IP: ", orNA recorded]])
          else (m, evs)
        else
          if sendAlerts then
            (m, evs ++ [Ev.notify ["DDNS IP Update FAILED for ", dc.name]
              ["The IP address update for ", dc.name, " failed. ",
               "Please check the application logs and IAM permissions."]])
          else (m, evs)
      else
        if sendAlerts then
          (m, evs ++ [Ev.notify ["DDNS IP Mismatch DETECTED for ", dc.name]
            ["An IP mismatch was detected for ", dc.name,
             ", but auto-update is disabled.\n\n",
             "Please update the IP manually.\n\n",
             "Public IP: ", newIp, "\n", "Recorded IP: ", orNA recorded]])
        else (m, evs)
    else (m, evs)

/-- Fold of `processDomain` over the configured domain list. -/
def processAll (env : DdnsEnv) (newIp : String) :
    List (String × DomainState) → List DomainConfig →
    List (String × DomainState) × List Ev
  | m, [] => (m, [])
  | m, dc :: rest =>
    let r1 := processDomain env newIp m dc
    let r2 := processAll env newIp r1.1 rest
    (r2.1, r1.2 ++ r2.2)

/-- Embedding of `run_ddns_update`: stamp `last_ip_check_time`; on total
resolution failure notify once on the known-to-unknown transition (and
only when global notifications are enabled), null the stored IP, save and
return; otherwise store a changed public IP, run the domain loop and save
once at the end. -/
def run_ddns_update (env : DdnsEnv) (domains : List DomainConfig)
    (st : GlobalState) : GlobalState × List Ev :=
  let st1 := { st with last_ip_check_time := some env.now }
  let evs0 := [Ev.setLastIpCheckTime]
  match env.publicIp with
  | none =>
    let evs1 :=
      if st1.public_ip.isSome && env.globalNotificationsEnabled then
        [Ev.notify ["DDNS IP Check FAILED"]
          ["Failed to retrieve the public IP address. All IP providers failed."]]
      else []
    ({ st1 with public_ip := none },
     evs0 ++ evs1 ++ [Ev.setPublicIp none, Ev.saveState])
  | some newIp =>
    let changed := st1.public_ip ≠ some newIp
    let st2 := if changed then { st1 with public_ip := some newIp } else st1
    let evs1 := if changed then [Ev.setPublicIp (some newIp)] else []
    let r := processAll env newIp st2.domain_states domains
    ({ st2 with domain_states := r.1 },
     evs0 ++ evs1 ++ r.2 ++ [Ev.saveState])

/-- Notification actions in a trace. -/
def isNotify : Ev → Bool
  | .notify _ _ => true
  | _ => false

/-- Writes of `last_ip_check_time` in a trace. -/
def isStampIpCheck : Ev → Bool
  | .setLastIpCheckTime => true
  | _ => false

/-- Provider update calls in a trace. -/
def isUpdateCall : Ev → Bool
  | .updateCall _ _ => true
  | _ => false

lemma processDomain_no_stamp (env : DdnsEnv) (newIp : String)
    (m : List (String × DomainState)) (dc : DomainConfig) :
    ((processDomain env newIp m dc).2.countP isStampIpCheck) = 0 := by
  simp only [processDomain]
  simp [apply_ite Prod.snd, apply_ite (List.countP isStampIpCheck),
    isStampIpCheck, ite_self, List.countP_cons, List.countP_append, List.countP_nil]

lemma processAll_no_stamp (env : DdnsEnv) (newIp : String)
    (m : List (String × DomainState)) (domains : List DomainConfig) :
    ((processAll env newIp m domains).2.countP isStampIpCheck) = 0 := by
  induction domains generalizing m with
  | nil => rfl
  | cons dc rest ih =>
    simp only [processAll, List.countP_append]
    rw [processDomain_no_stamp, ih]

/-- C8: every DDNS cycle writes `last_ip_check_time` exactly once (and with
the current cycle time), whether IP resolution succeeds or all resolvers
fail. -/
theorem ddns_stamps_ip_check_once (env : DdnsEnv) (domains : List DomainConfig)
    (st : GlobalState) :
    ((run_ddns_update env domains st).2.countP isStampIpCheck) = 1 ∧
    (run_ddns_update env domains st).1.last_ip_check_time = some env.now := by
  unfold run_ddns_update
  cases hp : env.publicIp with
  | none =>
    constructor
    · simp [isStampIpCheck, List.countP_append, List.countP_cons,
        apply_ite (List.countP isStampIpCheck), ite_self]
    · rfl
  | some ip =>
    constructor
    · simp [isStampIpCheck, List.countP_append, List.countP_cons,
        apply_ite (List.countP isStampIpCheck), ite_self, processAll_no_stamp]
    · by_cases hc : ({ st with last_ip_check_time := some env.now } :
          GlobalState).public_ip ≠ some ip <;> simp [hc]

/-- A clock value for the concrete scenarios. -/
def epochDT : PyDateTime := ⟨1970, 1, 1, 0, 0, 0, 0, none⟩

/-- Cycle oracle in which every IP resolver fails and global notifications
are disabled. -/
def envC4 : DdnsEnv :=
  { publicIp := none, getARecord := fun _ => none,
    updateResult := fun _ _ => false, now := epochDT,
    globalNotificationsEnabled := false }

/-- Cycle oracle in which every IP resolver fails and global notifications
are enabled. -/
def envC4w : DdnsEnv :=
  { publicIp := none, getARecord := fun _ => none,
    updateResult := fun _ _ => false, now := epochDT,
    globalNotificationsEnabled := true }

/-- State remembering a previously resolved public IP. -/
def stC4 : GlobalState :=
  { public_ip := some "1.2.3.4", last_ip_check_time := none, domain_states := [] }

/-- C4 counterexample: with every resolver failing and a previously known
public IP, but global notifications disabled, the cycle emits no failure
notification at all — refuting the unconditional one-notification claim. -/
theorem ddns_fail_notify_counterexample :
    envC4.publicIp = none ∧ stC4.public_ip.isSome = true ∧
    (run_ddns_update envC4 [] stC4).2.countP isNotify = 0 := by
  refine ⟨rfl, rfl, ?_⟩
  rfl

/-- C4 amended: in a cycle where every IP resolver fails, `public_ip` is
nulled, and exactly one failure notification is emitted when the stored
`public_ip` was non-null and global notifications are enabled — otherwise
none. -/
theorem ddns_all_resolvers_fail (env : DdnsEnv) (domains : List DomainConfig)
    (st : GlobalState) (h : env.publicIp = none) :
    (run_ddns_update env domains st).1.public_ip = none ∧
    (run_ddns_update env domains st).2.countP isNotify =
      (if st.public_ip.isSome && env.globalNotificationsEnabled then 1 else 0) := by
  unfold run_ddns_update
  rw [h]
  constructor
  · rfl
  · by_cases hc : st.public_ip.isSome && env.globalNotificationsEnabled <;>
      simp [hc, isNotify, List.countP_append, List.countP_cons]

/-- Witness for the amended C4 theorem at a concrete failing cycle with a
known prior IP and notifications enabled. -/
theorem ddns_all_resolvers_fail_witness :
    (run_ddns_update envC4w [] stC4).1.public_ip = none ∧
    (run_ddns_update envC4w [] stC4).2.countP isNotify = 1 := by
  have h := ddns_all_resolvers_fail envC4w [] stC4 rfl
  simpa using h

lemma dsGet_dsSet_self (m : List (String × DomainState)) (k : String)
    (f : DomainState → DomainState) : dsGet (dsSet m k f) k = f (dsGet m k) := by
  simp [dsGet, dsSet, dictSet_lookup_self]

/-- C6: a record value carrying the alias sentinel is never passed to the
update operation — the per-domain step makes no provider update call,
irrespective of `auto_update` (and of every other flag). -/
theorem alias_never_updated (env : DdnsEnv) (newIp : String)
    (m : List (String × DomainState)) (dc : DomainConfig)
    (h : isAliasValue (env.getARecord dc.name) = true) :
    ((processDomain env newIp m dc).2.countP isUpdateCall) = 0 := by
  simp only [processDomain]
  by_cases hd : dc.ddns = true
  · simp [hd, h, isUpdateCall]
  · simp [hd, isUpdateCall]

/-- Cycle oracle whose record read returns an alias-sentinel value and
whose update call would report success if it were ever made. -/
def envAlias : DdnsEnv :=
  { publicIp := some "9.9.9.9",
    getARecord := fun _ => some "ALIAS: lb.example.com.",
    updateResult := fun _ _ => true, now := epochDT,
    globalNotificationsEnabled := true }

/-- Domain configured for DDNS with auto-update on. -/
def dcAlias : DomainConfig :=
  { name := "a.example.com", ddns := true, auto_update := true,
    notifications := true, ssl_enabled := true }

/-- Witness for the alias-guard theorem at a concrete aliased domain. -/
theorem alias_never_updated_witness :
    ((processDomain envAlias "9.9.9.9" [] dcAlias).2.countP isUpdateCall) = 0 :=
  alias_never_updated envAlias "9.9.9.9" [] dcAlias (by decide)

/-- C7: on a DDNS mismatch with auto-update enabled, the provider update
call is invoked with the resolved public IP; on success the stored
`recorded_ip` becomes the new IP, `last_update_time` holds the cycle time,
and (when global and per-domain alerts are enabled) a notification whose
body carries both the old and the new IP is emitted; on failure the stored
`recorded_ip` keeps the queried value and a failure notification is
emitted when alerts are enabled. -/
theorem mismatch_auto_update_behavior
    (env : DdnsEnv) (newIp : String) (m : List (String × DomainState))
    (dc : DomainConfig) (old : String)
    (hd : dc.ddns = true)
    (hrec : env.getARecord dc.name = some old)
    (halias : isAliasValue (some old) = false)
    (hne : old ≠ newIp) (hempty : old ≠ "")
    (hauto : dc.auto_update = true) :
    Ev.updateCall dc.name newIp ∈ (processDomain env newIp m dc).2 ∧
    (env.updateResult dc.name newIp = true →
      (dsGet (processDomain env newIp m dc).1 dc.name).recorded_ip = some newIp ∧
      (dsGet (processDomain env newIp m dc).1 dc.name).last_update_time = some env.now ∧
      (env.globalNotificationsEnabled && dc.notifications = true →
        Ev.notify ["DDNS IP Updated for ", dc.name]
          ["The IP address for ", dc.name, " has been successfully updated.\n\n",
           "New IP: ", newIp, "\n", "Old IP: ", old] ∈ (processDomain env newIp m dc).2 ∧
        newIp ∈ ["The IP address for ", dc.name, " has been successfully updated.\n\n",
           "New IP: ", newIp, "\n", "Old IP: ", old] ∧
        old ∈ ["The IP address for ", dc.name, " has been successfully updated.\n\n",
           "New IP: ", newIp, "\n", "Old IP: ", old])) ∧
    (env.updateResult dc.name newIp = false →
      (dsGet (processDomain env newIp m dc).1 dc.name).recorded_ip = some old ∧
      (dsGet (processDomain env newIp m dc).1 dc.name).last_update_time = some env.now ∧
      (env.globalNotificationsEnabled && dc.notifications = true →
        Ev.notify ["DDNS IP Update FAILED for ", dc.name]
          ["The IP address update for ", dc.name, " failed. ",
           "Please check the application logs and IAM permissions."]
          ∈ (processDomain env newIp m dc).2)) := by
  have hne2 : ¬ env.getARecord dc.name = some newIp := by
    rw [hrec]
    simpa using hne
  have horNA : orNA (some old) = old := by simp [orNA, hempty]
  by_cases hs : env.updateResult dc.name newIp = true
  · by_cases hg : env.globalNotificationsEnabled = true <;>
      by_cases hn2 : dc.notifications = true <;>
      simp [processDomain, hrec, hd, hauto, halias, hs, hg, hn2, hne, hne2,
        horNA, dsGet_dsSet_self]
  · rw [Bool.not_eq_true] at hs
    by_cases hg : env.globalNotificationsEnabled = true <;>
      by_cases hn2 : dc.notifications = true <;>
      simp [processDomain, hrec, hd, hauto, halias, hs, hg, hn2, hne, hne2,
        horNA, dsGet_dsSet_self]

/-- Cycle oracle for the mismatch scenario: record reads "1.1.1.1", the
update call succeeds. -/
def envC7 : DdnsEnv :=
  { publicIp := some "9.9.9.9", getARecord := fun _ => some "1.1.1.1",
    updateResult := fun _ _ => true, now := epochDT,
    globalNotificationsEnabled := true }

/-- Domain `b.example.com` with DDNS and auto-update enabled. -/
def dcC7 : DomainConfig :=
  { name := "b.example.com", ddns := true, auto_update := true,
    notifications := true, ssl_enabled := false }

/-- Witness for the mismatch theorem: concrete update call and recorded-ip
outcome for `b.example.com`. -/
theorem mismatch_auto_update_behavior_witness :
    Ev.updateCall "b.example.com" "9.9.9.9"
      ∈ (processDomain envC7 "9.9.9.9" [] dcC7).2 ∧
    (dsGet (processDomain envC7 "9.9.9.9" [] dcC7).1 "b.example.com").recorded_ip
      = some "9.9.9.9" := by
  have h := mismatch_auto_update_behavior envC7 "9.9.9.9" [] dcC7 "1.1.1.1"
    rfl rfl (by decide) (by decide) (by decide) rfl
  exact ⟨h.1, (h.2.1 rfl).1⟩

lemma dsSet_keeps (m : List (String × DomainState)) (k2 k : String)
    (f : DomainState → DomainState) (h : (m.lookup k2).isSome = true) :
    ((dsSet m k f).lookup k2).isSome = true := by
  by_cases hk : k2 = k
  · subst hk
    rw [dsSet, dictSet_lookup_self]
    rfl
  · rw [dsSet, dictSet_lookup_ne _ _ _ _ hk]
    exact h

lemma ensureEntry_keeps (m : List (String × DomainState)) (k k2 : String)
    (h : (m.lookup k2).isSome = true) :
    ((ensureEntry m k).lookup k2).isSome = true := by
  unfold ensureEntry
  split
  · exact h
  · by_cases hk : k2 = k
    · subst hk
      rw [dictSet_lookup_self]
      rfl
    · rw [dictSet_lookup_ne _ _ _ _ hk]
      exact h

lemma ensureEntry_self (m : List (String × DomainState)) (k : String) :
    ((ensureEntry m k).lookup k).isSome = true := by
  unfold ensureEntry
  split
  · assumption
  · rw [dictSet_lookup_self]
    rfl

lemma processDomain_keeps (env : DdnsEnv) (newIp : String)
    (m : List (String × DomainState)) (dc : DomainConfig) (k : String)
    (h : (m.lookup k).isSome = true) :
    (((processDomain env newIp m dc).1).lookup k).isSome = true := by
  simp only [processDomain]
  repeat' split
  all_goals dsimp only
  all_goals
    repeat
      first
      | exact ensureEntry_keeps m dc.name k h
      | apply dsSet_keeps

lemma processDomain_self (env : DdnsEnv) (newIp : String)
    (m : List (String × DomainState)) (dc : DomainConfig) :
    (((processDomain env newIp m dc).1).lookup dc.name).isSome = true := by
  simp only [processDomain]
  repeat' split
  all_goals dsimp only
  all_goals
    repeat
      first
      | exact ensureEntry_self m dc.name
      | apply dsSet_keeps

lemma processAll_keeps (env : DdnsEnv) (newIp : String)
    (domains : List DomainConfig) :
    ∀ (m : List (String × DomainState)) (k : String),
      (m.lookup k).isSome = true →
      ((processAll env newIp m domains).1.lookup k).isSome = true := by
  induction domains with
  | nil => intro m k h; exact h
  | cons dc rest ih =>
    intro m k h
    exact ih _ _ (processDomain_keeps env newIp m dc k h)

lemma processAll_member_entry (env : DdnsEnv) (newIp : String)
    (domains : List DomainConfig) :
    ∀ (m : List (String × DomainState)) (dc : DomainConfig), dc ∈ domains →
      ((processAll env newIp m domains).1.lookup dc.name).isSome = true := by
  induction domains with
  | nil => intro m dc h; cases h
  | cons d0 rest ih =>
    intro m dc h
    rcases List.mem_cons.mp h with h0 | h1
    · subst h0
      exact processAll_keeps env newIp rest _ _ (processDomain_self env newIp m dc)
    · exact ih _ dc h1

lemma processDomain_events_ddns (env : DdnsEnv) (newIp : String)
    (m : List (String × DomainState)) (dc : DomainConfig) (hd : dc.ddns = true) :
    Ev.setRecordedIp dc.name (env.getARecord dc.name)
      ∈ (processDomain env newIp m dc).2 ∧
    Ev.setLastUpdateTime dc.name env.now ∈ (processDomain env newIp m dc).2 := by
  simp only [processDomain, hd]
  repeat' split
  all_goals simp_all

lemma processAll_events_ddns (env : DdnsEnv) (newIp : String)
    (domains : List DomainConfig) :
    ∀ (m : List (String × DomainState)) (dc : DomainConfig),
      dc ∈ domains → dc.ddns = true →
      Ev.setRecordedIp dc.name (env.getARecord dc.name)
        ∈ (processAll env newIp m domains).2 ∧
      Ev.setLastUpdateTime dc.name env.now ∈ (processAll env newIp m domains).2 := by
  induction domains with
  | nil => intro m dc h; cases h
  | cons d0 rest ih =>
    intro m dc h hd
    rcases List.mem_cons.mp h with h0 | h1
    · subst h0
      have := processDomain_events_ddns env newIp m dc hd
      simp only [processAll, List.mem_append]
      exact ⟨Or.inl this.1, Or.inl this.2⟩
    · have := ih ((processDomain env newIp m d0).1) dc h1 hd
      simp only [processAll, List.mem_append]
      exact ⟨Or.inr this.1, Or.inr this.2⟩

/-- C10: in a cycle with successful IP resolution, a `domain_states` entry
exists afterwards for every configured domain (ddns-disabled included),
and every ddns-enabled domain gets its `recorded_ip` overwritten with the
freshly queried record value and its `last_update_time` overwritten with
the cycle time, whatever the alias/match/update outcome. -/
theorem cycle_frame_effects (env : DdnsEnv) (domains : List DomainConfig)
    (st : GlobalState) (newIp : String) (hres : env.publicIp = some newIp) :
    (∀ dc ∈ domains,
      (((run_ddns_update env domains st).1.domain_states).lookup dc.name).isSome
        = true) ∧
    (∀ dc ∈ domains, dc.ddns = true →
      Ev.setRecordedIp dc.name (env.getARecord dc.name)
        ∈ (run_ddns_update env domains st).2 ∧
      Ev.setLastUpdateTime dc.name env.now ∈ (run_ddns_update env domains st).2) := by
  unfold run_ddns_update
  rw [hres]
  constructor
  · intro dc hdc
    by_cases hc : ({ st with last_ip_check_time := some env.now } :
        GlobalState).public_ip ≠ some newIp <;>
      simpa [hc] using processAll_member_entry env newIp domains _ dc hdc
  · intro dc hdc hd
    have hm := fun m => processAll_events_ddns env newIp domains m dc hdc hd
    by_cases hc : ({ st with last_ip_check_time := some env.now } :
        GlobalState).public_ip ≠ some newIp <;>
      · simp only [hc, if_pos, if_neg, List.mem_append]
        exact ⟨Or.inl (Or.inr (hm _).1), Or.inl (Or.inr (hm _).2)⟩

/-- Domain with DDNS disabled, for the frame-effect witness. -/
def dcOff : DomainConfig :=
  { name := "c.example.com", ddns := false, auto_update := true,
    notifications := true, ssl_enabled := false }

/-- Witness for the frame-effect theorem on a concrete two-domain cycle:
the ddns-disabled domain gets an entry, and the ddns-enabled one gets its
queried record value written. -/
theorem cycle_frame_effects_witness :
    (((run_ddns_update envC7 [dcC7, dcOff] stC4).1.domain_states).lookup
      "c.example.com").isSome = true ∧
    Ev.setRecordedIp "b.example.com" (some "1.1.1.1")
      ∈ (run_ddns_update envC7 [dcC7, dcOff] stC4).2 := by
  have h := cycle_frame_effects envC7 [dcC7, dcOff] stC4 "9.9.9.9" rfl
  exact ⟨h.1 dcOff (by simp), (h.2 dcC7 (by simp) rfl).1⟩

/-- C2 counterexample: a corrupt state file does not leave the in-memory
state as it was — a prior state holding a known public IP is reset to the
fresh defaults by the `except` branch of `load_state`. -/
theorem load_parse_failure_counterexample :
    (load_state stC4 StateFile.unreadable).1 ≠ stC4 ∧
    stC4.public_ip = some "1.2.3.4" := by
  constructor
  · decide
  · rfl

/-- C2 amended: on any parse failure, `load_state` logs the error, raises
nothing (the result is total), and resets the in-memory state to the fresh
defaults — which coincides with the prior state only when that state was
still the defaults. -/
theorem load_parse_failure_resets (prior : GlobalState) (file : StateFile)
    (h : loadParseFails file) :
    load_state prior file = (freshState, true) := by
  rcases h with h | ⟨s, hf, hs⟩
  · subst h
    rfl
  · subst hf
    simp [load_state, hs]

/-- Witness for the amended C2 theorem on an unreadable file. -/
theorem load_parse_failure_resets_witness :
    load_state stC4 StateFile.unreadable = (freshState, true) :=
  load_parse_failure_resets stC4 StateFile.unreadable (Or.inl rfl)

/-- C5: serializing a state with `save_state` and deserializing with
`load_state` reproduces the state, and in particular every timestamp field
denotes the same instant (and every non-timestamp field is preserved). -/
theorem save_load_roundtrip (S prior : GlobalState) (h : validGlobal S = true) :
    (load_state prior (StateFile.parsed (save_state S))).1 = S ∧
    optInstant (load_state prior (StateFile.parsed (save_state S))).1.last_ip_check_time
      = optInstant S.last_ip_check_time ∧
    ∀ name,
      (((load_state prior (StateFile.parsed (save_state S))).1.domain_states.lookup name).map
        fun d => (d.recorded_ip, optInstant d.ssl_expiration,
          optInstant d.last_update_time, optInstant d.ssl_last_renew))
      = ((S.domain_states.lookup name).map
        fun d => (d.recorded_ip, optInstant d.ssl_expiration,
          optInstant d.last_update_time, optInstant d.ssl_last_renew)) := by
  have hL : (load_state prior (StateFile.parsed (save_state S))).1 = S := by
    simp [load_state, convertState_save S h]
  exact ⟨hL, by rw [hL], fun name => by rw [hL]⟩

/-- An aware timestamp with microseconds and a negative UTC offset. -/
def dtW : PyDateTime := ⟨2024, 3, 7, 2, 30, 5, 123456, some (-330)⟩

/-- A state exercising every timestamp slot for the round-trip witness. -/
def stateW : GlobalState :=
  { public_ip := some "9.9.9.9", last_ip_check_time := some dtW,
    domain_states :=
      [("b.example.com",
        { recorded_ip := some "9.9.9.9",
          ssl_expiration := some ⟨2025, 1, 2, 3, 4, 5, 0, some 60⟩,
          last_update_time := some dtW, ssl_last_renew := none })] }

/-- Witness for the round-trip theorem on a concrete state. -/
theorem save_load_roundtrip_witness :
    (load_state freshState (StateFile.parsed (save_state stateW))).1 = stateW :=
  (save_load_roundtrip stateW freshState (by decide)).1

/-! ## Notification fanout

Embedding of `NotificationService._send` and its two handlers.  The
constructor outcome is summarized by which handlers are configured
(`smtp_enabled`, the number of Apprise servers added) plus the final
`self.enabled` flag; the SMTP network exchange and `apobj.notify` are
oracle booleans (an exception inside `_send_smtp` or `_send_apprise` is a
`false` result). -/

structure NotifyConfig where
  enabled : Bool
  smtp_enabled : Bool
  appriseServers : Nat
deriving DecidableEq

structure NotifyEnv where
  smtpSendResult : Bool
  appriseResult : Bool
deriving DecidableEq

inductive Channel
  | smtp
  | apprise
deriving DecidableEq

/-- Embedding of `_send_smtp`: a disabled handler reports success without
attempting anything; otherwise the result is the smtplib outcome.  The
second component records the attempt. -/
def send_smtp (c : NotifyConfig) (env : NotifyEnv) : Bool × List Channel :=
  if ¬ c.smtp_enabled then (true, [])
  else (env.smtpSendResult, [Channel.smtp])

/-- Embedding of `_send_apprise`: with no configured Apprise servers it
reports success without attempting anything; otherwise the result is the
`apobj.notify` outcome. -/
def send_apprise (c : NotifyConfig) (env : NotifyEnv) : Bool × List Channel :=
  if c.appriseServers = 0 then (true, [])
  else (env.appriseResult, [Channel.apprise])

/-- Embedding of `_send`: when enabled, run both handlers unconditionally
and succeed if at least one handler result is a success. -/
def notificationSend (c : NotifyConfig) (env : NotifyEnv) :
    (Bool × String) × List Channel :=
  if ¬ c.enabled then ((true, "Notifications are disabled."), [])
  else
    let s := send_smtp c env
    let a := send_apprise c env
    if s.1 || a.1 then ((true, "Notification sent."), s.2 ++ a.2)
    else ((false, "All notification services failed."), s.2 ++ a.2)

/-- Constructor invariant (source lines 87-89): if nothing was configured,
`self.enabled` has been cleared. -/
def notifyConfigWellFormed (c : NotifyConfig) : Bool :=
  !c.enabled || (c.smtp_enabled || decide (c.appriseServers ≠ 0))

/-- Service state with only Apprise configured. -/
def cfgC3 : NotifyConfig := ⟨true, false, 1⟩

/-- Service state with both handler kinds configured. -/
def cfgC3w : NotifyConfig := ⟨true, true, 2⟩

/-- Oracle in which every attempted channel fails. -/
def envC3 : NotifyEnv := ⟨false, false⟩

/-- C3 counterexample: with notifications enabled, SMTP not configured and
one Apprise channel configured, every enabled channel fails and yet the
overall result is success — because a handler with nothing configured
reports success and one handler success suffices. -/
theorem fanout_success_counterexample :
    notifyConfigWellFormed cfgC3 = true ∧ cfgC3.enabled = true ∧
    cfgC3.smtp_enabled = false ∧ cfgC3.appriseServers = 1 ∧
    envC3.appriseResult = false ∧
    ((notificationSend cfgC3 envC3).1).1 = true := by
  decide

/-- C3 amended: with the service enabled, both handlers always run (every
configured handler attempts its send, whatever the other returns), and the
overall result is a failure exactly when the SMTP handler is configured
and fails and the Apprise handler is configured and fails; a handler with
nothing configured counts as a success, so when only one handler kind is
configured its failure still yields an overall success. -/
theorem fanout_result (c : NotifyConfig) (env : NotifyEnv)
    (hen : c.enabled = true) :
    (notificationSend c env).2 =
      (if c.smtp_enabled then [Channel.smtp] else []) ++
      (if c.appriseServers = 0 then [] else [Channel.apprise]) ∧
    (((notificationSend c env).1).1 = false ↔
      (c.smtp_enabled = true ∧ env.smtpSendResult = false) ∧
      (c.appriseServers ≠ 0 ∧ env.appriseResult = false)) := by
  by_cases hs : c.smtp_enabled = true <;>
    by_cases hap : c.appriseServers = 0 <;>
    by_cases he1 : env.smtpSendResult = true <;>
    by_cases he2 : env.appriseResult = true <;>
    simp [notificationSend, send_smtp, send_apprise, hen, hs, hap, he1, he2]

/-- Witness for the amended C3 theorem: both handler kinds configured and
both failing gives an overall failure, with both channels attempted. -/
theorem fanout_result_witness :
    (notificationSend cfgC3w envC3).2 = [Channel.smtp, Channel.apprise] ∧
    ((notificationSend cfgC3w envC3).1).1 = false := by
  have h := fanout_result cfgC3w envC3 rfl
  exact ⟨h.1, h.2.mpr (by decide)⟩

/-! ## SSL batch worker

Embedding of `_run_ssl_check_thread`.  The certbot invocation and the two
certificate-expiration reads (before and after the renewal check) are
oracles.  The worker walks the configured domain list with its enumerate
index, skipping SSL-disabled domains entirely (their `continue` also skips
the save and the nap), and sleeps between domains: a long pause after
every tenth processed index, a short one otherwise, never after the last
listed domain.  A `KeyError` on the `ssl_last_renew` write (possible when
the renewal-marker branch runs without a `domain_states` entry) kills the
thread; the embedding returns a completion flag for it. -/

structure SslEnv where
  certExpiration : String → Option PyDateTime
  renewResult : String → Bool → Bool × String
  certExpirationAfter : String → Option PyDateTime
  now : PyDateTime
  globalNotificationsEnabled : Bool

inductive SslEv
  | renewCheck (domain : String) (auto : Bool)
  | notify (subject body : List String)
  | setSslLastRenew (domain : String)
  | setSslExpiration (domain : String) (v : Option PyDateTime)
  | save
  | sleepLong
  | sleepShort
deriving DecidableEq

/-- Substring test standing for the Python `in` operator on text. -/
def containsSub (needle : List Char) : List Char → Bool
  | [] => needle.isEmpty
  | c :: rest => needle.isPrefixOf (c :: rest) || containsSub needle rest

/-- Renewal-occurred test of line 291: `"Congratulations, all renewals
succeeded" in output or "Renewed" in output`. -/
def renewedMarker (out : String) : Bool :=
  containsSub "Congratulations, all renewals succeeded".toList out.toList ||
  containsSub "Renewed".toList out.toList

/-- Lines 299-302: re-read the expiration and store it, guarded by entry
membership. -/
def sslRecheck (env : SslEnv) (m : List (String × DomainState)) (name : String) :
    List (String × DomainState) × List SslEv :=
  let expiry := env.certExpirationAfter name
  if (m.lookup name).isSome then
    (dsSet m name fun d => { d with ssl_expiration := expiry },
     [SslEv.setSslExpiration name expiry])
  else (m, [])

/-- The check logic of one SSL-enabled domain (lines 276-302).  The third
component is false exactly when the unguarded `ssl_last_renew` write hits
a missing entry and the thread dies of `KeyError`. -/
def sslStep (env : SslEnv) (m : List (String × DomainState)) (dc : DomainConfig) :
    List (String × DomainState) × List SslEv × Bool :=
  let name := dc.name
  let alerts := env.globalNotificationsEnabled && dc.notifications
  match env.certExpiration name with
  | none => (m, [], true)
  | some _ =>
    let r := env.renewResult name dc.auto_update
    let evs0 := [SslEv.renewCheck name dc.auto_update]
    if r.1 = false then
      let evs1 := evs0 ++
        (if alerts then
          [SslEv.notify ["SSL Certificate Renewal FAILED for ", name]
            ["The daily certbot renew command failed. See logs for details.\n\nOutput:\n",
             r.2]]
         else [])
      let rq := sslRecheck env m name
      (rq.1, evs1 ++ rq.2, true)
    else if renewedMarker r.2 then
      if (m.lookup name).isSome then
        let m1 := dsSet m name fun d => { d with ssl_last_renew := some env.now }
        let evs1 := evs0 ++ [SslEv.setSslLastRenew name] ++
          (if alerts then
            [SslEv.notify ["SSL Certificate Renewed Successfully"]
              ["SSL certificate for ", name, " was successfully renewed.\n\nOutput:\n",
               r.2]]
           else [])
        let rq := sslRecheck env m1 name
        (rq.1, evs1 ++ rq.2, true)
      else (m, evs0, false)
    else
      let rq := sslRecheck env m name
      (rq.1, evs0 ++ rq.2, true)

/-- The worker loop (lines 264-318), carrying the enumerate index. -/
def sslLoop (env : SslEnv) (total : Nat) :
    Nat → List (String × DomainState) → List DomainConfig →
    List (String × DomainState) × List SslEv × Bool
  | _, m, [] => (m, [], true)
  | i, m, dc :: rest =>
    if dc.ssl_enabled = false then sslLoop env total (i + 1) m rest
    else
      let s := sslStep env m dc
      if s.2.2 = false then (s.1, s.2.1, false)
      else
        let nap : List SslEv :=
          if i < total - 1 then
            (if (i + 1) % 10 = 0 then [SslEv.sleepLong] else [SslEv.sleepShort])
          else []
        let r2 := sslLoop env total (i + 1) s.1 rest
        (r2.1, (s.2.1 ++ [SslEv.save]) ++ nap ++ r2.2.1, r2.2.2)

/-- Embedding of `_run_ssl_check_thread`: iterate over the configured
domains with `total_domains = len(domains)`. -/
def run_ssl_check_thread (env : SslEnv) (domains : List DomainConfig)
    (m : List (String × DomainState)) :
    List (String × DomainState) × List SslEv × Bool :=
  sslLoop env domains.length 0 m domains

/-- Sleep actions. -/
def isSleep : SslEv → Bool
  | .sleepLong => true
  | .sleepShort => true
  | _ => false

/-- Long (three-hour) sleep actions. -/
def isSleepLong : SslEv → Bool
  | .sleepLong => true
  | _ => false

lemma sslRecheck_keeps (env : SslEnv) (m : List (String × DomainState))
    (name k : String) (h : (m.lookup k).isSome = true) :
    ((sslRecheck env m name).1.lookup k).isSome = true := by
  simp only [sslRecheck]
  split
  · dsimp only
    exact dsSet_keeps m k name _ h
  · exact h

lemma sslStep_keeps (env : SslEnv) (m : List (String × DomainState))
    (dc : DomainConfig) (k : String) (h : (m.lookup k).isSome = true) :
    ((sslStep env m dc).1.lookup k).isSome = true := by
  simp only [sslStep, sslRecheck]
  repeat' split
  all_goals dsimp only
  all_goals
    repeat
      first
      | exact h
      | apply dsSet_keeps

lemma sslStep_ok (env : SslEnv) (m : List (String × DomainState))
    (dc : DomainConfig) (h : (m.lookup dc.name).isSome = true) :
    (sslStep env m dc).2.2 = true := by
  simp only [sslStep]
  repeat' split
  all_goals dsimp only

lemma sslStep_no_sleep (env : SslEnv) (m : List (String × DomainState))
    (dc : DomainConfig) : (sslStep env m dc).2.1.filter isSleep = [] := by
  simp only [sslStep, sslRecheck]
  repeat' split
  all_goals simp [isSleep]

lemma countP_mult10 (n : Nat) :
    (List.range n).countP (fun j => decide ((j + 1) % 10 = 0)) = n / 10 := by
  induction n with
  | zero => rfl
  | succ k ih =>
    rw [List.range_succ, List.countP_append, ih]
    by_cases hk : (k + 1) % 10 = 0 <;> simp [List.countP_cons, hk] <;> omega

lemma sslLoop_spec (env : SslEnv) (N : Nat) :
    ∀ (rest : List DomainConfig) (i : Nat) (m : List (String × DomainState)),
      i + rest.length = N →
      (∀ dc ∈ rest, dc.ssl_enabled = true ∧ (m.lookup dc.name).isSome = true) →
      (sslLoop env N i m rest).2.2 = true ∧
      (sslLoop env N i m rest).2.1.filter isSleep =
        (List.range rest.length).filterMap (fun j =>
          if i + j < N - 1 then
            some (if (i + j + 1) % 10 = 0 then SslEv.sleepLong else SslEv.sleepShort)
          else none) ∧
      (rest ≠ [] → (sslLoop env N i m rest).2.1.getLast? = some SslEv.save) := by
  intro rest
  induction rest with
  | nil =>
    intro i m hlen hdom
    refine ⟨rfl, rfl, by simp⟩
  | cons dc tail ih =>
    intro i m hlen hdom
    obtain ⟨hd, hm⟩ := hdom dc (List.mem_cons_self dc tail)
    have hok := sslStep_ok env m dc hm
    have htail : ∀ d ∈ tail, d.ssl_enabled = true ∧
        (((sslStep env m dc).1.lookup d.name)).isSome = true := by
      intro d hdt
      obtain ⟨h1, h2⟩ := hdom d (List.mem_cons_of_mem dc hdt)
      exact ⟨h1, sslStep_keeps env m dc d.name h2⟩
    have hlen2 : (i + 1) + tail.length = N := by
      simp only [List.length_cons] at hlen
      omega
    have ihx := ih (i + 1) (sslStep env m dc).1 hlen2 htail
    rw [sslLoop]
    rw [if_neg (by simp [hd])]
    simp only [hok, if_neg (by simp : ¬ (true = false))]
    refine ⟨ihx.1, ?_, ?_⟩
    · rw [List.filter_append, List.filter_append, List.filter_append]
      rw [sslStep_no_sleep env m dc]
      rw [ihx.2.1]
      have hsave : List.filter isSleep [SslEv.save] = [] := rfl
      rw [hsave]
      simp only [List.length_cons, List.nil_append]
      rw [List.range_succ_eq_map]
      rw [List.filterMap_cons, List.filterMap_map]
      have hnap : (List.filter isSleep
          (if i < N - 1 then
            (if (i + 1) % 10 = 0 then [SslEv.sleepLong] else [SslEv.sleepShort])
          else [])) =
          (if i + 0 < N - 1 then
            (if (i + 0 + 1) % 10 = 0 then [SslEv.sleepLong] else [SslEv.sleepShort])
          else []) := by
        by_cases hi : i < N - 1 <;>
          by_cases h10 : (i + 1) % 10 = 0 <;> simp [hi, h10, isSleep]
      rw [hnap]
      by_cases hi : i + 0 < N - 1
      · by_cases h10 : (i + 0 + 1) % 10 = 0 <;>
          · simp only [hi, h10, if_pos, reduceIte, List.singleton_append]
            congr 1
            apply List.filterMap_congr
            intro j hj
            have hsh : i + Nat.succ j = (i + 1) + j := by omega
            rw [Function.comp_apply, hsh]
      · have h0 : tail.length = 0 := by omega
        have hi2 : ¬ i < N - 1 := by omega
        simp [hi2, h0]
    · intro hne
      rcases List.eq_nil_or_concat tail with ht | ht
      · subst ht
        have hi : ¬ i < N - 1 := by
          simp only [List.length_cons, List.length_nil] at hlen
          omega
        simp only [hi, if_neg, reduceIte, sslLoop]
        simp
      · have htne : tail ≠ [] := by
          rcases ht with ⟨l2, a, rfl⟩
          simp
        have hlast := ihx.2.2 htne
        have hrecne : (sslLoop env N (i + 1) (sslStep env m dc).1 tail).2.1 ≠ [] := by
          intro hempty
          rw [hempty] at hlast
          simp at hlast
        rw [List.getLast?_append_of_ne_nil _ hrecne]
        exact hlast

lemma countP_congr_list {α : Type} (p q : α → Bool) :
    ∀ l : List α, (∀ a ∈ l, p a = q a) → l.countP p = l.countP q := by
  intro l
  induction l with
  | nil => intro _; rfl
  | cons a rest ih =>
    intro h
    rw [List.countP_cons, List.countP_cons, h a (by simp),
      ih fun b hb => h b (by simp [hb])]

lemma filterMap_range_drop (N : Nat) (g : Nat → SslEv) :
    (List.range N).filterMap (fun j => if j < N - 1 then some (g j) else none) =
    (List.range (N - 1)).map g := by
  cases N with
  | zero => rfl
  | succ k =>
    rw [List.range_succ, List.filterMap_append]
    simp only [Nat.succ_sub_one]
    have hall : ∀ l : List Nat, (∀ t ∈ l, t < k) →
        l.filterMap (fun j => if j < k then some (g j) else none) = l.map g := by
      intro l
      induction l with
      | nil => intro _; rfl
      | cons a rest ih =>
        intro hl
        rw [List.filterMap_cons, List.map_cons]
        rw [if_pos (hl a (List.mem_cons_self a rest))]
        rw [ih fun t ht => hl t (List.mem_cons_of_mem a ht)]
    rw [hall (List.range k) fun t ht => List.mem_range.mp ht]
    simp

/-- C1: for a configuration of SSL-enabled domains with existing
certificates (and present state entries), the batch worker completes, its
sleeps are exactly one per processed domain except the last — the long
pause when the 1-based index is a multiple of ten, the short pause
otherwise — the long pause therefore occurs `(N-1)/10` times, and the
trace ends with the final save, never with a sleep. -/
theorem ssl_batch_pacing (env : SslEnv) (domains : List DomainConfig)
    (m : List (String × DomainState))
    (h : ∀ dc ∈ domains, dc.ssl_enabled = true ∧
      (env.certExpiration dc.name).isSome = true ∧ (m.lookup dc.name).isSome = true) :
    (run_ssl_check_thread env domains m).2.2 = true ∧
    (run_ssl_check_thread env domains m).2.1.filter isSleep =
      (List.range (domains.length - 1)).map
        (fun j => if (j + 1) % 10 = 0 then SslEv.sleepLong else SslEv.sleepShort) ∧
    ((run_ssl_check_thread env domains m).2.1.countP isSleepLong) =
      (domains.length - 1) / 10 ∧
    (domains ≠ [] →
      (run_ssl_check_thread env domains m).2.1.getLast? = some SslEv.save) := by
  have hspec := sslLoop_spec env domains.length domains 0 m (by simp)
    (fun dc hdc => ⟨(h dc hdc).1, (h dc hdc).2.2⟩)
  have hsleeps : (run_ssl_check_thread env domains m).2.1.filter isSleep =
      (List.range (domains.length - 1)).map
        (fun j => if (j + 1) % 10 = 0 then SslEv.sleepLong else SslEv.sleepShort) := by
    rw [run_ssl_check_thread, hspec.2.1]
    rw [List.filterMap_congr (g := fun j => if j < domains.length - 1 then
        some (if (j + 1) % 10 = 0 then SslEv.sleepLong else SslEv.sleepShort) else none)
      (by intro j hj; simp)]
    exact filterMap_range_drop domains.length _
  refine ⟨hspec.1, hsleeps, ?_, hspec.2.2⟩
  have h1 : (run_ssl_check_thread env domains m).2.1.countP isSleepLong =
      ((run_ssl_check_thread env domains m).2.1.filter isSleep).countP isSleepLong := by
    rw [List.countP_filter]
    exact countP_congr_list _ _ _ fun a _ => by cases a <;> rfl
  rw [h1, hsleeps, List.countP_map]
  rw [countP_congr_list _ (fun j => decide ((j + 1) % 10 = 0)) _
    (fun j _ => by by_cases hj : (j + 1) % 10 = 0 <;> simp [hj, isSleepLong])]
  exact countP_mult10 domains.length.pred

/-- An SSL-enabled domain configuration. -/
def dcSSL (n : String) : DomainConfig :=
  { name := n, ddns := false, auto_update := true, notifications := true,
    ssl_enabled := true }

/-- Worker oracle with certificates present and no-op renewal outcomes. -/
def envSSL : SslEnv :=
  { certExpiration := fun _ => some epochDT,
    renewResult := fun _ _ => (true, "no renewals were attempted"),
    certExpirationAfter := fun _ => some epochDT,
    now := epochDT, globalNotificationsEnabled := false }

/-- Three SSL-enabled domains. -/
def domsSSL : List DomainConfig :=
  [dcSSL "a.example.com", dcSSL "b2.example.com", dcSSL "c2.example.com"]

/-- State entries for the three domains. -/
def mSSL : List (String × DomainState) :=
  [("a.example.com", emptyDS), ("b2.example.com", emptyDS),
   ("c2.example.com", emptyDS)]

/-- Witness for the pacing theorem: three domains sleep short, short, and
the batch never sleeps long nor after the last domain. -/
theorem ssl_batch_pacing_witness :
    (run_ssl_check_thread envSSL domsSSL mSSL).2.1.filter isSleep =
      [SslEv.sleepShort, SslEv.sleepShort] ∧
    (run_ssl_check_thread envSSL domsSSL mSSL).2.1.countP isSleepLong = 0 ∧
    (run_ssl_check_thread envSSL domsSSL mSSL).2.1.getLast? = some SslEv.save := by
  have h := ssl_batch_pacing envSSL domsSSL mSSL (by decide)
  refine ⟨?_, ?_, h.2.2.2 (by decide)⟩
  · rw [h.2.1]
    rfl
  · rw [h.2.2.1]
    rfl

/-! ## Single-flight guard of `run_ssl_check`

The guard scans `threading.enumerate()` for a live thread named
`SSL_Worker_Thread` and returns if one is found; otherwise it starts a new
worker with that name.  The scan and the `t.start()` are separate actions,
so two triggers (the scheduler thread and a request thread both call
`run_ssl_check`) can interleave between them.  The interleaving model:
`workers` counts live worker threads, `clearChecked` counts triggers that
completed the scan seeing no worker but have not yet started their
thread.  A trigger that sees a live worker returns at once, changing
nothing — it is dropped, never queued. -/

structure SFState where
  workers : Nat
  clearChecked : Nat
deriving DecidableEq

inductive SFStep : SFState → SFState → Prop
  | scanClear (s : SFState) (h : s.workers = 0) :
      SFStep s ⟨s.workers, s.clearChecked + 1⟩
  | scanBusy (s : SFState) (h : 0 < s.workers) : SFStep s s
  | start (s : SFState) (h : 0 < s.clearChecked) :
      SFStep s ⟨s.workers + 1, s.clearChecked - 1⟩
  | finish (s : SFState) (h : 0 < s.workers) :
      SFStep s ⟨s.workers - 1, s.clearChecked⟩

/-- C9 counterexample: from the idle state, two triggers that both scan
before either starts drive the system to two concurrently live workers —
the check-then-start guard is not atomic, so the as-stated guarantee
fails. -/
theorem single_flight_counterexample :
    Relation.ReflTransGen SFStep ⟨0, 0⟩ ⟨2, 0⟩ := by
  have s1 : SFStep ⟨0, 0⟩ ⟨0, 1⟩ := SFStep.scanClear ⟨0, 0⟩ rfl
  have s2 : SFStep ⟨0, 1⟩ ⟨0, 2⟩ := SFStep.scanClear ⟨0, 1⟩ rfl
  have s3 : SFStep ⟨0, 2⟩ ⟨1, 1⟩ := SFStep.start ⟨0, 2⟩ (by decide)
  have s4 : SFStep ⟨1, 1⟩ ⟨2, 0⟩ := SFStep.start ⟨1, 1⟩ (by decide)
  exact Relation.ReflTransGen.tail
    (Relation.ReflTransGen.tail
      (Relation.ReflTransGen.tail (Relation.ReflTransGen.single s1) s2) s3) s4

/-- One trigger with its scan and start taken atomically: start a worker
only when none is live, otherwise leave the state untouched. -/
def atomicTrigger (workers : Nat) : Nat :=
  if workers = 0 then workers + 1 else workers

inductive SFAtomicStep : Nat → Nat → Prop
  | trigger (n : Nat) : SFAtomicStep n (atomicTrigger n)
  | finish (n : Nat) (h : 0 < n) : SFAtomicStep n (n - 1)

/-- C9 amended: a trigger arriving while a worker is live is dropped (the
worker count is unchanged, nothing is queued), and provided no two
triggers interleave between their scan and their thread start (each
trigger is atomic), the worker count never exceeds one; with the
interleaving the code actually allows, two overlapping triggers can start
two concurrent workers. -/
theorem single_flight_atomic (a b : Nat)
    (hreach : Relation.ReflTransGen SFAtomicStep a b) (ha : a ≤ 1) :
    b ≤ 1 ∧ (0 < a → atomicTrigger a = a) := by
  constructor
  · induction hreach with
    | refl => exact ha
    | tail hab hbc ih =>
      cases hbc with
      | trigger =>
        unfold atomicTrigger
        split
        · omega
        · exact ih
      | finish h => omega
  · intro hpos
    unfold atomicTrigger
    rw [if_neg (by omega)]

/-- Witness for the amended C9 theorem: a worker finishing from the
singly-occupied state keeps the invariant, and a trigger at one live
worker is a no-op. -/
theorem single_flight_atomic_witness :
    (0 : Nat) ≤ 1 ∧ (0 < 1 → atomicTrigger 1 = 1) :=
  single_flight_atomic 1 0
    (Relation.ReflTransGen.single (SFAtomicStep.finish 1 (by decide)))
    (by decide)

end DomainManager
